import Mathlib

/-!
Verification of the data-loading and aggregation layer of `src/app.py`
(a pandas/streamlit dashboard over Brazilian public-health data).

Numbers carried by dataframe columns are modelled as exact rationals.
Division follows pandas/numpy float semantics: dividing by zero never
raises; it yields `+inf`, `-inf` or `NaN` depending on the numerator,
which we capture with the `PFloat` type.  Rounding a column with
`.round(2)` is modelled as exact round-half-to-even at two decimals
(numpy's rounding rule on exact values).
-/

/-- Result of a pandas float computation: a finite value, an infinity,
or the missing value `NaN`. -/
inductive PFloat where
  | val : ℚ → PFloat
  | posInf : PFloat
  | negInf : PFloat
  | nan : PFloat
deriving DecidableEq, Repr

/-- Round a rational to the nearest integer, ties to even
(numpy's rounding rule). -/
def roundHalfEven (q : ℚ) : ℤ :=
  let n := ⌊q⌋
  let r := q - n
  if r < 1/2 then n
  else if 1/2 < r then n + 1
  else if 2 ∣ n then n else n + 1

/-- `Series.round(2)` on an exact value: round half-to-even at two
decimal places. -/
def round2 (q : ℚ) : ℚ := (roundHalfEven (q * 100) : ℚ) / 100

/-- pandas float division `x / y`: by zero it yields `+inf`, `-inf` or
`NaN` according to the sign of the numerator, and never raises. -/
def pdiv (x y : ℚ) : PFloat :=
  if y = 0 then
    if 0 < x then .posInf else if x < 0 then .negInf else .nan
  else .val (x / y)

/-- `.round(2)` lifted to pandas floats: infinities and `NaN` are
returned unchanged. -/
def round2P : PFloat → PFloat
  | .val q => .val (round2 q)
  | x => x

/-- One row of `df_ambulatorial` as selected by `load_ambulatory_data`
(`src/app.py` lines 27-41, with the aliases of the query).  The
municipality code may be missing (SQL NULL / pandas NaN); the other key
columns are plain strings. -/
structure AmbRecord where
  codigo_municipio : Option String
  nome_municipio : String
  regiao_nome : String
  uf_sigla : String
  ano_producao_ambulatorial : String
  qtd_total : ℚ
  vl_total : ℚ
  qtd_total_subgrupos : ℚ
deriving DecidableEq, Repr

/-- String comparison used to order pandas groupby keys. -/
def strLe (a b : String) : Bool := decide (a ≤ b)

/-- The distinct key values of `df.groupby(key)` in the order pandas
emits them (`sort=True`, the default): sorted ascending. -/
def sortedKeys (key : AmbRecord → String) (df : List AmbRecord) : List String :=
  ((df.map key).dedup).mergeSort strLe

/-- The rows of one groupby group. -/
def groupRows (key : AmbRecord → String) (v : String) (df : List AmbRecord) : List AmbRecord :=
  df.filter fun r => decide (key r = v)

/-- `Series.nunique()` on the municipality-code column of a group:
the number of distinct non-missing codes. -/
def nuniqueCodes (rows : List AmbRecord) : ℕ :=
  ((rows.filterMap fun r => r.codigo_municipio).dedup).length

/-- One row of the groupby aggregate of `src/app.py` lines 191-201 /
239-249 (after the renames): summed `vl_total`, summed `qtd_total`,
`nunique` of `codigo_municipio`. -/
structure AggRow where
  key : String
  investimento_total : ℚ
  procedimentos_total : ℚ
  municipios : ℕ
deriving DecidableEq, Repr

/-- The aggregate row for one group key. -/
def aggRowFor (key : AmbRecord → String) (df : List AmbRecord) (v : String) : AggRow :=
  { key := v
    investimento_total := ((groupRows key v df).map fun r => r.vl_total).sum
    procedimentos_total := ((groupRows key v df).map fun r => r.qtd_total).sum
    municipios := nuniqueCodes (groupRows key v df) }

/-- `df.groupby(key).agg({vl_total: sum, qtd_total: sum,
codigo_municipio: nunique}).reset_index()` with the renames applied. -/
def aggBy (key : AmbRecord → String) (df : List AmbRecord) : List AggRow :=
  (sortedKeys key df).map (aggRowFor key df)

/-- `investimento_regiao` as built at `src/app.py` lines 191-201
(before the in-place display rounding of lines 229-231). -/
def investimento_regiao (df : List AmbRecord) : List AggRow :=
  aggBy (fun r => r.regiao_nome) df

/-- `dados_uf`, the by-state aggregate of `src/app.py` lines 239-249. -/
def dados_uf (df : List AmbRecord) : List AggRow :=
  aggBy (fun r => r.uf_sigla) df

/-- One row of the by-region table displayed at `src/app.py` line 233,
after the mutations of lines 229-231: the value sum is rounded in
place, then both per-municipality ratios are computed (the value ratio
from the already-rounded sum) and rounded. -/
structure RegionDisplayRow where
  regiao_nome : String
  investimento_total : ℚ
  procedimentos_total : ℚ
  municipios : ℕ
  investimento_por_municipio : PFloat
  procedimentos_por_municipio : PFloat
deriving DecidableEq, Repr

/-- Lines 229-231 of `src/app.py` applied to one aggregate row. -/
def displayRegionRow (a : AggRow) : RegionDisplayRow :=
  let inv := round2 a.investimento_total
  { regiao_nome := a.key
    investimento_total := inv
    procedimentos_total := a.procedimentos_total
    municipios := a.municipios
    investimento_por_municipio := round2P (pdiv inv (a.municipios : ℚ))
    procedimentos_por_municipio := round2P (pdiv a.procedimentos_total (a.municipios : ℚ)) }

/-- The by-region table as displayed (lines 191-201 and 229-231). -/
def investimento_regiao_display (df : List AmbRecord) : List RegionDisplayRow :=
  (investimento_regiao df).map displayRegionRow

/-- The comparison used by `nlargest(10, 'investimento_total')`:
descending by summed value. -/
def byInvestDesc (a b : AggRow) : Bool := decide (b.investimento_total ≤ a.investimento_total)

/-- `dados_uf.nlargest(10, 'investimento_total')` (`src/app.py` line
252): the first 10 rows of a stable descending sort by summed value
(pandas `nlargest` with the default `keep='first'`). -/
def top_estados (df : List AmbRecord) : List AggRow :=
  ((dados_uf df).mergeSort byInvestDesc).take 10

/-- One row of `evolucao_anual` (`src/app.py` lines 272-275): group by
production year, sum value and quantity only. -/
structure YearAgg where
  ano_producao_ambulatorial : String
  vl_total : ℚ
  qtd_total : ℚ
deriving DecidableEq, Repr

/-- `df.groupby('ano_producao_ambulatorial').agg({vl_total: sum,
qtd_total: sum}).reset_index()` (`src/app.py` lines 272-275). -/
def evolucao_anual (df : List AmbRecord) : List YearAgg :=
  (sortedKeys (fun r => r.ano_producao_ambulatorial) df).map fun v =>
    { ano_producao_ambulatorial := v
      vl_total := ((groupRows (fun r => r.ano_producao_ambulatorial) v df).map fun r => r.vl_total).sum
      qtd_total := ((groupRows (fun r => r.ano_producao_ambulatorial) v df).map fun r => r.qtd_total).sum }

/-- The shape of one loader's fixed SQL text: the selected output
columns, the table, an optional `WHERE <col> >= '2020'` filter and an
optional `LIMIT`. -/
structure SQLQuery where
  selectCols : List String
  fromTable : String
  yearFilterCol : Option String
  rowLimit : Option Nat
deriving DecidableEq, Repr

/-- The query of `load_ambulatory_data` (`src/app.py` lines 28-40):
year filter, no `LIMIT`. -/
def ambulatoryQuery : SQLQuery :=
  { selectCols := ["codigo_municipio", "nome_municipio", "regiao_nome", "uf_sigla",
                   "ano_producao_ambulatorial", "qtd_total", "vl_total", "qtd_total_subgrupos"]
    fromTable := "sus_procedimento_ambulatorial"
    yearFilterCol := some "ano_producao_ambulatorial"
    rowLimit := none }

/-- The query of `load_population_data` (`src/app.py` lines 45-54):
no filter, `LIMIT 100000`. -/
def populationQuery : SQLQuery :=
  { selectCols := ["ANO", "CO_MUNICIPIO", "IDADE", "SEXO", "populacao"]
    fromTable := "Censo_20222_Populacao_Idade_Sexo"
    yearFilterCol := none
    rowLimit := some 100000 }

/-- The query of `load_economic_data` (`src/app.py` lines 59-69):
year filter and `LIMIT 50000`. -/
def economicQuery : SQLQuery :=
  { selectCols := ["codigo_municipio_dv", "ano_pib", "vl_pib", "vl_pib_per_capta", "vl_servicos"]
    fromTable := "pib_municipios"
    yearFilterCol := some "ano_pib"
    rowLimit := some 50000 }

/-- The query of `load_municipio_data` (`src/app.py` lines 75-85):
no filter, `LIMIT 5000`. -/
def municipioQuery : SQLQuery :=
  { selectCols := ["codigo_municipio", "nome_municipio", "municipio_capital", "latitude", "longitude"]
    fromTable := "municipio"
    yearFilterCol := none
    rowLimit := some 5000 }

/-- The four loaders' queries, one fixed SQL text each. -/
def loaderQueries : List SQLQuery :=
  [ambulatoryQuery, populationQuery, economicQuery, municipioQuery]

/-- Whether a query carries the `>= '2020'` year filter. -/
def hasYearFilter (q : SQLQuery) : Bool := q.yearFilterCol.isSome

/-- Whether a query carries a `LIMIT` row cap. -/
def hasRowCap (q : SQLQuery) : Bool := q.rowLimit.isSome

/-- The fixed table list of `explore_database_structure`
(`src/app.py` line 92). -/
def exploreTables : List String :=
  ["municipio", "sus_procedimento_ambulatorial", "pib_municipios",
   "Censo_20222_Populacao_Idade_Sexo"]

/-- What `explore_database_structure` records for one table: on
success the returned column names and the first row (if any), on
failure the error message. -/
inductive TableInfo where
  | ok : List String → Option (List String) → TableInfo
  | err : String → TableInfo
deriving DecidableEq, Repr

/-- The database as seen by `SELECT * FROM t LIMIT 1`: per table name,
either the column list together with at most one row, or an error. -/
def DBEnv : Type := String → Except String (List String × Option (List String))

/-- The body of the `try/except` at `src/app.py` lines 97-106 for one
table name. -/
def introspectTable (db : DBEnv) (t : String) : TableInfo :=
  match db t with
  | .ok (cols, sample) => .ok cols sample
  | .error e => .err e

/-- `explore_database_structure` (`src/app.py` lines 89-108): one entry
per fixed table name, keyed by the table name. -/
def explore_database_structure (db : DBEnv) : List (String × TableInfo) :=
  exploreTables.map fun t => (t, introspectTable db t)

/-- Characters that force `to_csv` (QUOTE_MINIMAL) to quote a field:
the delimiter, the quote char and line-break characters. -/
def csvSpecial (c : Char) : Bool := c = ',' || c = '"' || c = '\n' || c = '\r'

/-- CSV quoting doubles an embedded quote character. -/
def escChar (c : Char) : List Char := if c = '"' then ['"', '"'] else [c]

/-- The body of a quoted CSV field: every character escaped. -/
def escBody (s : List Char) : List Char := (s.map escChar).flatten

/-- One CSV field as written by `to_csv`: quoted (with doubled inner
quotes) exactly when the content contains a special character. -/
def escapeCell (s : List Char) : List Char :=
  if s.any csvSpecial then '"' :: escBody s ++ ['"'] else s

/-- Comma-join the fields of one record. -/
def joinCells : List (List Char) → List Char
  | [] => []
  | [c] => c
  | c :: cs => c ++ ',' :: joinCells cs

/-- One line of the CSV text: the escaped fields, comma-separated,
terminated by a newline. -/
def csvLine (cells : List (List Char)) : List Char :=
  joinCells (cells.map escapeCell) ++ ['\n']

/-- The header row of `df_ambulatorial.to_csv(index=False)`: the
column names selected by the ambulatory query. -/
def headerCells : List (List Char) := ambulatoryQuery.selectCols.map String.data

/-- A missing value (pandas NaN) is written as the empty field. -/
def optCell : Option String → List Char
  | none => []
  | some s => s.data

/-- Rendering of a numeric cell. -/
def ratCell (q : ℚ) : List Char := (toString q).data

/-- The eight fields of one ambulatory row, in column order. -/
def recordCells (r : AmbRecord) : List (List Char) :=
  [optCell r.codigo_municipio, r.nome_municipio.data, r.regiao_nome.data,
   r.uf_sigla.data, r.ano_producao_ambulatorial.data,
   ratCell r.qtd_total, ratCell r.vl_total, ratCell r.qtd_total_subgrupos]

/-- `df_ambulatorial.to_csv(index=False)` (`src/app.py` line 303):
header row then one line per record, comma-separated, quoting minimal,
each line ended by a newline. -/
def to_csv (df : List AmbRecord) : List Char :=
  ((headerCells :: df.map recordCells).map csvLine).flatten

/-- Parser state of the CSV reader: outside quotes, inside quotes, or
just after a quote character inside a quoted field. -/
inductive PState where
  | normal : PState
  | quoted : PState
  | afterQuote : PState
deriving DecidableEq, Repr

/-- Accumulator of the CSV reader: the current field, the fields of
the current record, the finished records, and the quoting state. -/
structure PAcc where
  cell : List Char
  row : List (List Char)
  rows : List (List (List Char))
  st : PState
deriving Repr

/-- One character of `read_csv` record/field splitting: commas and
newlines delimit outside quotes, a doubled quote inside a quoted field
is a literal quote, and blank lines are skipped
(`skip_blank_lines=True`, the default). -/
def pstep (a : PAcc) (c : Char) : PAcc :=
  match a.st with
  | .normal =>
    if c = '"' then { a with st := .quoted }
    else if c = ',' then { a with cell := [], row := a.row ++ [a.cell] }
    else if c = '\n' then
      if a.cell.isEmpty && a.row.isEmpty then a
      else { a with cell := [], row := [], rows := a.rows ++ [a.row ++ [a.cell]] }
    else { a with cell := a.cell ++ [c] }
  | .quoted =>
    if c = '"' then { a with st := .afterQuote }
    else { a with cell := a.cell ++ [c] }
  | .afterQuote =>
    if c = '"' then { a with cell := a.cell ++ ['"'], st := .quoted }
    else if c = ',' then { a with cell := [], row := a.row ++ [a.cell], st := .normal }
    else if c = '\n' then
      { a with cell := [], row := [], rows := a.rows ++ [a.row ++ [a.cell]], st := .normal }
    else { a with cell := a.cell ++ [c], st := .normal }

/-- `pd.read_csv` re-parsing of the CSV text into records of fields:
run the splitter over the text and flush a trailing record without a
final newline. -/
def parseCsv (s : List Char) : List (List (List Char)) :=
  let fin := s.foldl pstep ⟨[], [], [], .normal⟩
  if fin.cell.isEmpty && fin.row.isEmpty then fin.rows
  else fin.rows ++ [fin.row ++ [fin.cell]]

/-- A sample ambulatory row (used as a concrete input below). -/
def r1 : AmbRecord :=
  { codigo_municipio := some "110001", nome_municipio := "Alta Floresta",
    regiao_nome := "Norte", uf_sigla := "RO", ano_producao_ambulatorial := "2021",
    qtd_total := 10, vl_total := 100, qtd_total_subgrupos := 3 }

/-- A second sample row in the same region and state. -/
def r2 : AmbRecord :=
  { codigo_municipio := some "110002", nome_municipio := "Ariquemes",
    regiao_nome := "Norte", uf_sigla := "RO", ano_producao_ambulatorial := "2022",
    qtd_total := 5, vl_total := 50, qtd_total_subgrupos := 1 }

/-- A row whose municipality code is missing (SQL NULL), so its group
has `nunique = 0` distinct codes. -/
def c5rec : AmbRecord :=
  { codigo_municipio := none, nome_municipio := "Desconhecido",
    regiao_nome := "Norte", uf_sigla := "AM", ano_producao_ambulatorial := "2021",
    qtd_total := 5, vl_total := 10, qtd_total_subgrupos := 0 }

/-- A row whose value total has more than two decimal places. -/
def c7rec : AmbRecord :=
  { codigo_municipio := some "110001", nome_municipio := "Alta Floresta",
    regiao_nome := "Norte", uf_sigla := "RO", ano_producao_ambulatorial := "2021",
    qtd_total := 1, vl_total := 1/8, qtd_total_subgrupos := 0 }

/-- A sample database with one working table. -/
def dbA : DBEnv := fun t =>
  if t = "municipio" then
    .ok (["codigo_municipio_dv", "nome_municipio"], some ["1100015", "Alta Floresta"])
  else .error ("relation " ++ t ++ " does not exist")

/-- A second sample database agreeing with `dbA` on `municipio` only. -/
def dbB : DBEnv := fun t =>
  if t = "municipio" then
    .ok (["codigo_municipio_dv", "nome_municipio"], some ["1100015", "Alta Floresta"])
  else .error "server closed the connection unexpectedly"

theorem mem_sortedKeys {key : AmbRecord → String} {df : List AmbRecord} {v : String} :
    v ∈ sortedKeys key df ↔ ∃ r ∈ df, key r = v := by
  simp [sortedKeys, List.mem_mergeSort, List.mem_dedup]

theorem nodup_sortedKeys (key : AmbRecord → String) (df : List AmbRecord) :
    (sortedKeys key df).Nodup :=
  (List.mergeSort_perm _ strLe).symm.nodup (List.nodup_dedup _)

theorem sum_map_add_q {α : Type} (l : List α) (f g : α → ℚ) :
    (l.map fun x => f x + g x).sum = (l.map f).sum + (l.map g).sum := by
  induction l with
  | nil => simp
  | cons a t ih => simp [ih]; ring

theorem sum_map_ite_eq {keys : List String} {w : String} (hnd : keys.Nodup)
    (hw : w ∈ keys) (x : ℚ) :
    (keys.map fun v => if w = v then x else 0).sum = x := by
  induction keys with
  | nil => cases hw
  | cons k ks ih =>
    rw [List.map_cons, List.sum_cons]
    rcases List.mem_cons.mp hw with h | h
    · subst h
      rw [if_pos rfl, List.sum_eq_zero, add_zero]
      intro y hy
      obtain ⟨v, hv, rfl⟩ := List.mem_map.mp hy
      have hne : w ≠ v := fun e => (List.nodup_cons.mp hnd).1 (e ▸ hv)
      exact if_neg hne
    · have hk : k ∉ ks := (List.nodup_cons.mp hnd).1
      have hne : w ≠ k := fun e => hk (e ▸ h)
      rw [if_neg hne, zero_add]
      exact ih (List.nodup_cons.mp hnd).2 h

theorem sum_groups (key : AmbRecord → String) (f : AmbRecord → ℚ) (df : List AmbRecord) :
    ∀ keys : List String, keys.Nodup → (∀ r ∈ df, key r ∈ keys) →
      (keys.map fun v => ((df.filter fun x => decide (key x = v)).map f).sum).sum
        = (df.map f).sum := by
  induction df with
  | nil =>
    intro keys _ _
    rw [List.map_nil, List.sum_nil, List.sum_eq_zero]
    intro y hy
    obtain ⟨v, _, rfl⟩ := List.mem_map.mp hy
    simp
  | cons r t ih =>
    intro keys hnd hmem
    have hmem_t : ∀ x ∈ t, key x ∈ keys := fun x hx => hmem x (List.mem_cons_of_mem _ hx)
    have step : (keys.map fun v => ((List.filter (fun x => decide (key x = v)) (r :: t)).map f).sum)
        = keys.map fun v =>
            (if key r = v then f r else 0) + ((t.filter fun x => decide (key x = v)).map f).sum := by
      apply List.map_congr_left
      intro v _
      by_cases h : key r = v
      · simp [List.filter_cons, h]
      · simp [List.filter_cons, h]
    rw [step, sum_map_add_q, sum_map_ite_eq hnd (hmem r (List.mem_cons_self r t)),
      ih keys hnd hmem_t, List.map_cons, List.sum_cons]

/-- **C6** (counterexample): the claimed shape of the four loader
queries is false on the code: it is not the case that exactly one query
has a row cap and no year filter, two have both, and one has neither —
in fact only the economic query has both, the ambulatory query has the
year filter but no cap, and two queries (population, municipality) have
a cap and no filter. -/
theorem c6_counterexample :
    ¬(((loaderQueries.filter fun q => hasRowCap q && !hasYearFilter q).length = 1)
      ∧ ((loaderQueries.filter fun q => hasYearFilter q && hasRowCap q).length = 2)
      ∧ ((loaderQueries.filter fun q => !hasYearFilter q && !hasRowCap q).length = 1)) := by
  decide

/-- **C6** (amended): each of the four dataset loaders issues exactly
one fixed SQL text; the ambulatory query has the `>= '2020'` year
filter and no row cap, the economic query has both the filter and a
`LIMIT 50000` cap, and the population and municipality queries have
row caps (`LIMIT 100000`, `LIMIT 5000`) and no year filter; no query
is free of both. -/
theorem c6_loader_shapes :
    (loaderQueries.filter fun q => hasYearFilter q && !hasRowCap q) = [ambulatoryQuery]
    ∧ (loaderQueries.filter fun q => hasYearFilter q && hasRowCap q) = [economicQuery]
    ∧ (loaderQueries.filter fun q => hasRowCap q && !hasYearFilter q)
        = [populationQuery, municipioQuery]
    ∧ (loaderQueries.filter fun q => !hasYearFilter q && !hasRowCap q) = []
    ∧ economicQuery.rowLimit = some 50000
    ∧ populationQuery.rowLimit = some 100000
    ∧ municipioQuery.rowLimit = some 5000
    ∧ ambulatoryQuery.rowLimit = none := by
  decide

/-- **C4**: on the empty ambulatory table every aggregate — by region
(raw and displayed), by state, the top-10 selection and the yearly
evolution — is the empty table; all of the aggregation functions are
total, so no exception is raised. -/
theorem c4_empty_aggregates :
    investimento_regiao [] = [] ∧ investimento_regiao_display [] = []
    ∧ dados_uf [] = [] ∧ top_estados [] = [] ∧ evolucao_anual [] = [] := by
  refine ⟨?_, ?_, ?_, ?_, ?_⟩ <;>
    simp [investimento_regiao, investimento_regiao_display, dados_uf, top_estados,
      evolucao_anual, aggBy, sortedKeys, List.mergeSort]

/-- **C3**: for every non-empty ambulatory table, the regional sums of
`vl_total` add up to the total sum of `vl_total` over the whole table:
grouping partitions the rows, no record is double-counted or dropped.
(Stated about the aggregate of lines 191-195, before display
rounding.) -/
theorem c3_region_partition_sum (df : List AmbRecord) (h : df ≠ []) :
    ((investimento_regiao df).map fun row => row.investimento_total).sum
      = (df.map fun r => r.vl_total).sum := by
  have hs := sum_groups (fun r => r.regiao_nome) (fun r => r.vl_total) df
    (sortedKeys (fun r => r.regiao_nome) df)
    (nodup_sortedKeys _ _)
    (fun r hr => mem_sortedKeys.mpr ⟨r, hr, rfl⟩)
  rw [← hs]
  rw [investimento_regiao, aggBy, List.map_map]
  apply congrArg List.sum
  apply List.map_congr_left
  intro v _
  simp [aggRowFor, groupRows]

/-- Witness for C3 at the two-row table `[r1, r2]`. -/
theorem c3_witness :
    (([r1, r2] : List AmbRecord) ≠ [])
    ∧ ((investimento_regiao [r1, r2]).map fun row => row.investimento_total).sum
        = ([r1, r2].map fun r => r.vl_total).sum :=
  ⟨List.cons_ne_nil r1 [r2], c3_region_partition_sum [r1, r2] (List.cons_ne_nil r1 [r2])⟩

/-- **C1**: the by-region table groups the rows on the region name —
its rows are keyed by exactly the distinct region names of the input —
and each row carries the (display-rounded) sum of `vl_total`, the sum
of `qtd_total`, the count of distinct municipality codes, and the two
per-municipality ratios obtained by dividing the table's two sum
columns by that distinct-municipality count (the displayed ratios are
rounded to two decimals, per the spec's display-rounding rule). -/
theorem c1_by_region_aggregate (df : List AmbRecord) :
    ((investimento_regiao_display df).map fun row => row.regiao_nome)
        = sortedKeys (fun r => r.regiao_nome) df
    ∧ (∀ v : String,
        (∃ r ∈ df, r.regiao_nome = v)
          ↔ ∃ row ∈ investimento_regiao_display df, row.regiao_nome = v)
    ∧ ∀ row ∈ investimento_regiao_display df,
        row.investimento_total
            = round2 (((groupRows (fun r => r.regiao_nome) row.regiao_nome df).map
                fun r => r.vl_total).sum)
        ∧ row.procedimentos_total
            = ((groupRows (fun r => r.regiao_nome) row.regiao_nome df).map
                fun r => r.qtd_total).sum
        ∧ row.municipios = nuniqueCodes (groupRows (fun r => r.regiao_nome) row.regiao_nome df)
        ∧ row.investimento_por_municipio
            = round2P (pdiv row.investimento_total (row.municipios : ℚ))
        ∧ row.procedimentos_por_municipio
            = round2P (pdiv row.procedimentos_total (row.municipios : ℚ)) := by
  refine ⟨?_, ?_, ?_⟩
  · rw [investimento_regiao_display, investimento_regiao, aggBy, List.map_map, List.map_map]
    refine (List.map_congr_left fun v _ => ?_).trans (List.map_id _)
    simp [displayRegionRow, aggRowFor]
  · intro v
    constructor
    · rintro ⟨r, hr, rfl⟩
      have hv : r.regiao_nome ∈ sortedKeys (fun x => x.regiao_nome) df :=
        mem_sortedKeys.mpr ⟨r, hr, rfl⟩
      refine ⟨displayRegionRow (aggRowFor (fun x => x.regiao_nome) df r.regiao_nome), ?_, ?_⟩
      · exact List.mem_map.mpr ⟨_, List.mem_map.mpr ⟨_, hv, rfl⟩, rfl⟩
      · simp [displayRegionRow, aggRowFor]
    · rintro ⟨row, hrow, rfl⟩
      obtain ⟨a, ha, rfl⟩ := List.mem_map.mp hrow
      obtain ⟨w, hw, rfl⟩ := List.mem_map.mp ha
      obtain ⟨r, hr, hkey⟩ := mem_sortedKeys.mp hw
      exact ⟨r, hr, by simp [displayRegionRow, aggRowFor, hkey]⟩
  · intro row hrow
    obtain ⟨a, ha, rfl⟩ := List.mem_map.mp hrow
    obtain ⟨w, hw, rfl⟩ := List.mem_map.mp ha
    refine ⟨?_, ?_, ?_, ?_, ?_⟩ <;> simp [displayRegionRow, aggRowFor]

/-- Witness for C1 at the table `[r1, r2]` (one region, two rows). -/
theorem c1_witness :
    (displayRegionRow (aggRowFor (fun r => r.regiao_nome) [r1, r2] "Norte")
        ∈ investimento_regiao_display [r1, r2])
    ∧ (displayRegionRow (aggRowFor (fun r => r.regiao_nome) [r1, r2] "Norte")).procedimentos_total
        = ((groupRows (fun r => r.regiao_nome)
              (displayRegionRow (aggRowFor (fun r => r.regiao_nome) [r1, r2] "Norte")).regiao_nome
              [r1, r2]).map fun r => r.qtd_total).sum := by
  have hkeys : sortedKeys (fun r => r.regiao_nome) [r1, r2] = ["Norte"] := by
    simp [sortedKeys, r1, r2, List.mergeSort]
  have hmem : displayRegionRow (aggRowFor (fun r => r.regiao_nome) [r1, r2] "Norte")
      ∈ investimento_regiao_display [r1, r2] := by
    simp [investimento_regiao_display, investimento_regiao, aggBy, hkeys]
  exact ⟨hmem, ((c1_by_region_aggregate [r1, r2]).2.2 _ hmem).2.1⟩

theorem municipios_pos (key : AmbRecord → String) (df : List AmbRecord)
    (h : ∀ r ∈ df, r.codigo_municipio.isSome = true) :
    ∀ row ∈ aggBy key df, 1 ≤ row.municipios := by
  intro row hrow
  obtain ⟨v, hv, rfl⟩ := List.mem_map.mp hrow
  obtain ⟨r, hr, hkey⟩ := mem_sortedKeys.mp hv
  have hrg : r ∈ groupRows key v df := by
    simp [groupRows, List.mem_filter, hr, hkey]
  obtain ⟨c, hc⟩ := Option.isSome_iff_exists.mp (h r hr)
  have hcm : c ∈ (groupRows key v df).filterMap fun x => x.codigo_municipio :=
    List.mem_filterMap.mpr ⟨r, hrg, hc⟩
  have hcd : c ∈ ((groupRows key v df).filterMap fun x => x.codigo_municipio).dedup :=
    List.mem_dedup.mpr hcm
  have hlen := List.length_pos.mpr (List.ne_nil_of_mem hcd)
  simpa [aggRowFor, nuniqueCodes] using hlen

/-- **C10**: if the municipality-code column has no missing values,
every by-region and by-state group counts at least one distinct
municipality (each group arises from at least one row), and therefore
both displayed per-municipality ratios are finite values — no zero
check is needed. -/
theorem c10_nonempty_groups (df : List AmbRecord)
    (h : ∀ r ∈ df, r.codigo_municipio.isSome = true) :
    (∀ row ∈ investimento_regiao df, 1 ≤ row.municipios)
    ∧ (∀ row ∈ dados_uf df, 1 ≤ row.municipios)
    ∧ ∀ row ∈ investimento_regiao_display df,
        (∃ a, row.investimento_por_municipio = PFloat.val a)
        ∧ ∃ b, row.procedimentos_por_municipio = PFloat.val b := by
  refine ⟨municipios_pos _ df h, municipios_pos _ df h, ?_⟩
  intro row hrow
  obtain ⟨a, ha, rfl⟩ := List.mem_map.mp hrow
  have hm : 1 ≤ a.municipios := municipios_pos _ df h a ha
  have hq : (a.municipios : ℚ) ≠ 0 := Nat.cast_ne_zero.mpr (by omega)
  constructor
  · exact ⟨round2 (round2 a.investimento_total / a.municipios), by
      simp [displayRegionRow, pdiv, hq, round2P]⟩
  · exact ⟨round2 (a.procedimentos_total / a.municipios), by
      simp [displayRegionRow, pdiv, hq, round2P]⟩

/-- Witness for C10 at the table `[r1, r2]` (all codes present). -/
theorem c10_witness :
    (∀ row ∈ investimento_regiao [r1, r2], 1 ≤ row.municipios)
    ∧ (∀ row ∈ dados_uf [r1, r2], 1 ≤ row.municipios) := by
  have h : ∀ r ∈ [r1, r2], r.codigo_municipio.isSome = true := by decide
  exact ⟨(c10_nonempty_groups [r1, r2] h).1, (c10_nonempty_groups [r1, r2] h).2.1⟩

/-- **C5** (counterexample): the division by the distinct-municipality
count is NOT guarded against zero.  On a one-row table whose
municipality code is missing, the group's `nunique` is 0 and the
displayed value-per-municipality ratio is `+inf` — a defined IEEE
infinity, not a missing value — so the claim that a zero count "yields
a defined missing value" because "the division ... is guarded against
zero" is false on the code. -/
theorem c5_counterexample :
    ((investimento_regiao_display [c5rec]).map fun row => row.investimento_por_municipio)
        = [PFloat.posInf]
    ∧ PFloat.posInf ≠ PFloat.nan := by
  constructor
  · have hkeys : sortedKeys (fun r => r.regiao_nome) [c5rec] = ["Norte"] := by
      simp [sortedKeys, c5rec, List.mergeSort]
    have hrows : groupRows (fun r => r.regiao_nome) "Norte" [c5rec] = [c5rec] := by
      simp [groupRows, c5rec]
    have hagg : aggRowFor (fun r => r.regiao_nome) [c5rec] "Norte"
        = { key := "Norte", investimento_total := 10, procedimentos_total := 5,
            municipios := 0 } := by
      rw [aggRowFor, hrows]
      simp [nuniqueCodes, c5rec]
    have hpos : (0 : ℚ) < round2 10 := by norm_num [round2, roundHalfEven]
    rw [investimento_regiao_display, investimento_regiao, aggBy, hkeys]
    simp only [List.map_cons, List.map_nil, hagg]
    simp [displayRegionRow, pdiv, round2P, hpos]
  · simp

/-- **C5** (amended): a by-region group with zero distinct municipality
codes yields an unguarded float division: the per-municipality ratios
are `+inf` for a positive numerator, `-inf` for a negative one, and
`NaN` (the missing value) only when the numerator is zero; no exception
is raised in any case. -/
theorem c5_zero_count_division (df : List AmbRecord) :
    ∀ row ∈ investimento_regiao_display df, row.municipios = 0 →
      (row.investimento_por_municipio
          = if 0 < row.investimento_total then PFloat.posInf
            else if row.investimento_total < 0 then PFloat.negInf else PFloat.nan)
      ∧ (row.procedimentos_por_municipio
          = if 0 < row.procedimentos_total then PFloat.posInf
            else if row.procedimentos_total < 0 then PFloat.negInf else PFloat.nan) := by
  intro row hrow hm
  obtain ⟨a, _, rfl⟩ := List.mem_map.mp hrow
  have hm' : a.municipios = 0 := by simpa [displayRegionRow] using hm
  have key : ∀ x : ℚ, round2P (pdiv x 0)
      = if 0 < x then PFloat.posInf else if x < 0 then PFloat.negInf else PFloat.nan := by
    intro x
    rw [pdiv]
    split_ifs <;> simp_all [round2P]
  constructor
  · simp only [displayRegionRow, hm', Nat.cast_zero, key]
  · simp only [displayRegionRow, hm', Nat.cast_zero, key]

/-- Witness for C5 (amended) at the one-row table `[c5rec]`. -/
theorem c5_witness :
    (displayRegionRow (aggRowFor (fun r => r.regiao_nome) [c5rec] "Norte")
        ∈ investimento_regiao_display [c5rec])
    ∧ (displayRegionRow (aggRowFor (fun r => r.regiao_nome) [c5rec] "Norte")).municipios = 0
    ∧ (displayRegionRow (aggRowFor (fun r => r.regiao_nome) [c5rec] "Norte")).investimento_por_municipio
        = if 0 < (displayRegionRow (aggRowFor (fun r => r.regiao_nome) [c5rec] "Norte")).investimento_total
          then PFloat.posInf
          else if (displayRegionRow (aggRowFor (fun r => r.regiao_nome) [c5rec] "Norte")).investimento_total < 0
          then PFloat.negInf else PFloat.nan := by
  have hkeys : sortedKeys (fun r => r.regiao_nome) [c5rec] = ["Norte"] := by
    simp [sortedKeys, c5rec, List.mergeSort]
  have hmem : displayRegionRow (aggRowFor (fun r => r.regiao_nome) [c5rec] "Norte")
      ∈ investimento_regiao_display [c5rec] := by
    simp [investimento_regiao_display, investimento_regiao, aggBy, hkeys]
  have hzero : (displayRegionRow (aggRowFor (fun r => r.regiao_nome) [c5rec] "Norte")).municipios = 0 := by
    simp [displayRegionRow, aggRowFor, nuniqueCodes, groupRows, c5rec]
  exact ⟨hmem, hzero, (c5_zero_count_division [c5rec] _ hmem hzero).1⟩

theorem roundHalfEven_intCast (n : ℤ) : roundHalfEven (n : ℚ) = n := by
  unfold roundHalfEven
  simp only [Int.floor_intCast]
  norm_num

theorem round2_idem (q : ℚ) : round2 (round2 q) = round2 q := by
  unfold round2
  rw [div_mul_cancel₀ _ (by norm_num : (100 : ℚ) ≠ 0), roundHalfEven_intCast]

theorem round2P_idem (x : PFloat) : round2P (round2P x) = round2P x := by
  cases x <;> simp [round2P, round2_idem]

/-- **C7** (counterexample): not every currency output of the
aggregation layer is rounded to two decimals — the by-state aggregate
keeps the raw sum.  On a one-row table with `vl_total = 1/8 = 0.125`,
`dados_uf` carries `investimento_total = 0.125`, which is not equal to
its own two-decimal rounding. -/
theorem c7_counterexample :
    ((dados_uf [c7rec]).map fun row => row.investimento_total) = [1/8]
    ∧ round2 (1/8) ≠ (1/8 : ℚ) := by
  constructor
  · have hkeys : sortedKeys (fun r => r.uf_sigla) [c7rec] = ["RO"] := by
      simp [sortedKeys, c7rec, List.mergeSort]
    have hrows : groupRows (fun r => r.uf_sigla) "RO" [c7rec] = [c7rec] := by
      simp [groupRows, c7rec]
    rw [dados_uf, aggBy, hkeys]
    simp only [List.map_cons, List.map_nil, aggRowFor, hrows]
    simp [c7rec]
  · norm_num [round2, roundHalfEven]

/-- **C7** (amended): the by-region display table's currency and ratio
outputs (the summed value and both per-municipality ratios) are
rounded to two decimal places, but the by-state and by-year aggregates
retain unrounded sums. -/
theorem c7_region_outputs_rounded (df : List AmbRecord) :
    ∀ row ∈ investimento_regiao_display df,
      round2 row.investimento_total = row.investimento_total
      ∧ round2P row.investimento_por_municipio = row.investimento_por_municipio
      ∧ round2P row.procedimentos_por_municipio = row.procedimentos_por_municipio := by
  intro row hrow
  obtain ⟨a, _, rfl⟩ := List.mem_map.mp hrow
  refine ⟨?_, ?_, ?_⟩ <;> simp [displayRegionRow, round2_idem, round2P_idem]

/-- Witness for C7 (amended) at the table `[r1, r2]`. -/
theorem c7_witness :
    (displayRegionRow (aggRowFor (fun r => r.regiao_nome) [r1, r2] "Norte")
        ∈ investimento_regiao_display [r1, r2])
    ∧ round2 (displayRegionRow (aggRowFor (fun r => r.regiao_nome) [r1, r2] "Norte")).investimento_total
        = (displayRegionRow (aggRowFor (fun r => r.regiao_nome) [r1, r2] "Norte")).investimento_total := by
  have hkeys : sortedKeys (fun r => r.regiao_nome) [r1, r2] = ["Norte"] := by
    simp [sortedKeys, r1, r2, List.mergeSort]
  have hmem : displayRegionRow (aggRowFor (fun r => r.regiao_nome) [r1, r2] "Norte")
      ∈ investimento_regiao_display [r1, r2] := by
    simp [investimento_regiao_display, investimento_regiao, aggBy, hkeys]
  exact ⟨hmem, (c7_region_outputs_rounded [r1, r2] _ hmem).1⟩

theorem lookup_map_self {f : String → TableInfo} {t : String} :
    ∀ {ks : List String}, t ∈ ks →
      (ks.map fun k => (k, f k)).lookup t = some (f t) := by
  intro ks
  induction ks with
  | nil => intro h; cases h
  | cons k ks ih =>
    intro h
    by_cases hk : t = k
    · subst hk
      simp [List.lookup]
    · have hb : (t == k) = false := beq_false_of_ne hk
      have ht : t ∈ ks := by
        rcases List.mem_cons.mp h with h' | h'
        · exact absurd h' hk
        · exact h'
      simp [List.lookup, hb, ih ht]

theorem lookup_map_congr {f g : String → TableInfo} {t : String} (h : f t = g t) :
    ∀ ks : List String,
      (ks.map fun k => (k, f k)).lookup t = (ks.map fun k => (k, g k)).lookup t := by
  intro ks
  induction ks with
  | nil => rfl
  | cons k ks ih =>
    by_cases hk : t = k
    · subst hk
      simp [List.lookup, h]
    · have hb : (t == k) = false := beq_false_of_ne hk
      simp [List.lookup, hb, ih]

theorem introspectTable_congr {db₁ db₂ : DBEnv} {t : String} (h : db₁ t = db₂ t) :
    introspectTable db₁ t = introspectTable db₂ t := by
  unfold introspectTable
  rw [h]

/-- **C8**: schema introspection over the fixed four-table list yields
one entry per table, keyed by the table name; the entry records the
returned column names (and first row, when any) on success and the
error message on failure; and each table's entry depends only on that
table's own query result, so one table's failure neither aborts nor
alters the other tables' entries. -/
theorem c8_introspection_isolated (db₁ db₂ : DBEnv) :
    ((explore_database_structure db₁).map Prod.fst = exploreTables)
    ∧ (∀ t ∈ exploreTables,
        (explore_database_structure db₁).lookup t = some (introspectTable db₁ t))
    ∧ (∀ t cols sample, db₁ t = .ok (cols, sample) → introspectTable db₁ t = .ok cols sample)
    ∧ (∀ t e, db₁ t = .error e → introspectTable db₁ t = .err e)
    ∧ (∀ t, db₁ t = db₂ t →
        (explore_database_structure db₁).lookup t
          = (explore_database_structure db₂).lookup t) := by
  refine ⟨?_, ?_, ?_, ?_, ?_⟩
  · rw [explore_database_structure, List.map_map]
    exact (List.map_congr_left fun t _ => rfl).trans (List.map_id _)
  · intro t ht
    exact lookup_map_self ht
  · intro t cols sample h
    unfold introspectTable
    rw [h]
  · intro t e h
    unfold introspectTable
    rw [h]
  · intro t h
    exact lookup_map_congr (introspectTable_congr h) exploreTables

/-- Witness for C8 at two concrete databases agreeing on `municipio`
(one fails on the other tables with one message, the other with
another). -/
theorem c8_witness :
    ((explore_database_structure dbA).lookup "municipio"
        = (explore_database_structure dbB).lookup "municipio")
    ∧ introspectTable dbA "pib_municipios"
        = TableInfo.err "relation pib_municipios does not exist" := by
  constructor
  · exact (c8_introspection_isolated dbA dbB).2.2.2.2 "municipio" (by simp [dbA, dbB])
  · exact (c8_introspection_isolated dbA dbB).2.2.2.1 "pib_municipios"
      "relation pib_municipios does not exist" (by simp [dbA])

theorem filter_take_eq_take_filter {α : Type} (p : α → Bool) :
    ∀ (l : List α) (n : ℕ), ∃ k, (l.take n).filter p = (l.filter p).take k := by
  intro l
  induction l with
  | nil => intro n; exact ⟨0, by simp⟩
  | cons a t ih =>
    intro n
    cases n with
    | zero => exact ⟨0, by simp⟩
    | succ m =>
      obtain ⟨k, hk⟩ := ih m
      by_cases hp : p a
      · exact ⟨k + 1, by simp [List.take_succ_cons, List.filter_cons, hp, hk]⟩
      · exact ⟨k, by simp [List.take_succ_cons, List.filter_cons, hp, hk]⟩

theorem byInvestDesc_trans :
    ∀ a b c : AggRow, byInvestDesc a b = true → byInvestDesc b c = true →
      byInvestDesc a c = true := by
  intro a b c hab hbc
  simp only [byInvestDesc, decide_eq_true_eq] at *
  exact le_trans hbc hab

theorem byInvestDesc_total :
    ∀ a b : AggRow, (byInvestDesc a b || byInvestDesc b a) = true := by
  intro a b
  simp only [byInvestDesc, Bool.or_eq_true, decide_eq_true_eq]
  exact le_total _ _

theorem filter_mergeSort_invest (l : List AggRow) (q : ℚ) :
    (l.mergeSort byInvestDesc).filter (fun x => decide (x.investimento_total = q))
      = l.filter fun x => decide (x.investimento_total = q) := by
  set p : AggRow → Bool := fun x => decide (x.investimento_total = q) with hp
  have hpair : (l.filter p).Pairwise fun a b => byInvestDesc a b = true := by
    apply List.pairwise_of_forall_mem_list
    intro a ha b hb
    have ha' : a.investimento_total = q := by
      have := (List.mem_filter.mp ha).2
      simpa [hp] using this
    have hb' : b.investimento_total = q := by
      have := (List.mem_filter.mp hb).2
      simpa [hp] using this
    simp [byInvestDesc, ha', hb']
  have hsub : (l.filter p).Sublist (l.mergeSort byInvestDesc) :=
    List.sublist_mergeSort byInvestDesc_trans byInvestDesc_total hpair (List.filter_sublist l)
  have hself : (l.filter p).filter p = l.filter p := by
    rw [List.filter_eq_self]
    intro a ha
    exact (List.mem_filter.mp ha).2
  have hsub2 : (l.filter p).Sublist ((l.mergeSort byInvestDesc).filter p) := by
    rw [← hself]
    exact hsub.filter p
  have hlen : (l.filter p).length = ((l.mergeSort byInvestDesc).filter p).length :=
    (((List.mergeSort_perm l byInvestDesc).filter p).length_eq).symm
  exact (hsub2.eq_of_length hlen).symm

/-- **C2**: the top-10-by-state selection is a subset of the full
by-state aggregate, has length `min 10 (number of distinct state
abbreviations)`, is sorted descending by summed value total, and is a
stable selection: for every value, the rows carrying that value appear
as a prefix (`take k`) of the rows carrying it in the full aggregate,
i.e. ties are broken by the original grouping order. -/
theorem c2_top_estados (df : List AmbRecord) :
    (∀ x ∈ top_estados df, x ∈ dados_uf df)
    ∧ (top_estados df).length = min 10 ((df.map fun r => r.uf_sigla).dedup).length
    ∧ (top_estados df).Pairwise (fun a b => b.investimento_total ≤ a.investimento_total)
    ∧ ∀ q : ℚ, ∃ k,
        (top_estados df).filter (fun x => decide (x.investimento_total = q))
          = ((dados_uf df).filter fun x => decide (x.investimento_total = q)).take k := by
  refine ⟨?_, ?_, ?_, ?_⟩
  · intro x hx
    exact List.mem_mergeSort.mp (List.take_subset _ _ hx)
  · rw [top_estados, List.length_take, List.length_mergeSort, dados_uf, aggBy,
      List.length_map, sortedKeys, List.length_mergeSort]
  · have hs := List.sorted_mergeSort byInvestDesc_trans byInvestDesc_total (dados_uf df)
    have hsub := List.Pairwise.sublist
      (List.take_sublist 10 ((dados_uf df).mergeSort byInvestDesc)) hs
    exact hsub.imp fun h => by simpa [byInvestDesc] using h
  · intro q
    obtain ⟨k, hk⟩ := filter_take_eq_take_filter
      (fun x => decide (x.investimento_total = q)) ((dados_uf df).mergeSort byInvestDesc) 10
    exact ⟨k, by rw [top_estados, hk, filter_mergeSort_invest]⟩

/-- Witness for C2 at the table `[r1, r2]` (a single state). -/
theorem c2_witness :
    (aggRowFor (fun r => r.uf_sigla) [r1, r2] "RO" ∈ dados_uf [r1, r2])
    ∧ (top_estados [r1, r2]).length
        = min 10 (([r1, r2].map fun r => r.uf_sigla).dedup).length := by
  have hkeys : sortedKeys (fun r => r.uf_sigla) [r1, r2] = ["RO"] := by
    simp [sortedKeys, r1, r2, List.mergeSort]
  have hdados : dados_uf [r1, r2] = [aggRowFor (fun r => r.uf_sigla) [r1, r2] "RO"] := by
    rw [dados_uf, aggBy, hkeys]
    simp
  have htop : aggRowFor (fun r => r.uf_sigla) [r1, r2] "RO" ∈ top_estados [r1, r2] := by
    rw [top_estados, hdados]
    simp [List.mergeSort]
  exact ⟨(c2_top_estados [r1, r2]).1 _ htop, (c2_top_estados [r1, r2]).2.1⟩

theorem scan_unquoted :
    ∀ s : List Char, (∀ c ∈ s, csvSpecial c = false) →
      ∀ (cell : List Char) (row : List (List Char)) (rows : List (List (List Char))),
        List.foldl pstep ⟨cell, row, rows, .normal⟩ s = ⟨cell ++ s, row, rows, .normal⟩ := by
  intro s
  induction s with
  | nil => intro _ cell row rows; simp
  | cons c t ih =>
    intro h cell row rows
    have hc : csvSpecial c = false := h c (List.mem_cons_self c t)
    have h1 : ¬ c = ',' := by intro e; subst e; simp [csvSpecial] at hc
    have h2 : ¬ c = '"' := by intro e; subst e; simp [csvSpecial] at hc
    have h3 : ¬ c = '\n' := by intro e; subst e; simp [csvSpecial] at hc
    rw [List.foldl_cons]
    have hstep : pstep ⟨cell, row, rows, .normal⟩ c = ⟨cell ++ [c], row, rows, .normal⟩ := by
      simp [pstep, h1, h2, h3]
    rw [hstep, ih (fun x hx => h x (List.mem_cons_of_mem c hx)) (cell ++ [c]) row rows]
    simp

theorem scan_quoted_body :
    ∀ (s cell : List Char) (row : List (List Char)) (rows : List (List (List Char))),
      List.foldl pstep ⟨cell, row, rows, .quoted⟩ (escBody s)
        = ⟨cell ++ s, row, rows, .quoted⟩ := by
  intro s
  induction s with
  | nil => intro cell row rows; simp [escBody]
  | cons c t ih =>
    intro cell row rows
    have hbody : escBody (c :: t) = escChar c ++ escBody t := by
      simp [escBody]
    rw [hbody, List.foldl_append]
    by_cases hc : c = '"'
    · subst hc
      have hstep : List.foldl pstep ⟨cell, row, rows, .quoted⟩ (escChar '"')
          = ⟨cell ++ ['"'], row, rows, .quoted⟩ := by
        simp [escChar, pstep]
      rw [hstep, ih]
      simp
    · have hstep : List.foldl pstep ⟨cell, row, rows, .quoted⟩ (escChar c)
          = ⟨cell ++ [c], row, rows, .quoted⟩ := by
        simp [escChar, hc, pstep]
      rw [hstep, ih]
      simp

theorem scan_cell_comma (s : List Char) (row : List (List Char))
    (rows : List (List (List Char))) (rest : List Char) :
    List.foldl pstep ⟨[], row, rows, .normal⟩ (escapeCell s ++ ',' :: rest)
      = List.foldl pstep ⟨[], row ++ [s], rows, .normal⟩ rest := by
  rw [escapeCell]
  by_cases hq : s.any csvSpecial
  · rw [if_pos hq]
    have hshape : ('"' :: escBody s ++ ['"']) ++ ',' :: rest
        = '"' :: (escBody s ++ '"' :: ',' :: rest) := by
      simp
    rw [hshape, List.foldl_cons]
    have h1 : pstep ⟨[], row, rows, .normal⟩ '"' = ⟨[], row, rows, .quoted⟩ := by
      simp [pstep]
    rw [h1, show escBody s ++ '"' :: ',' :: rest = escBody s ++ ('"' :: ',' :: rest) from rfl,
      List.foldl_append, scan_quoted_body, List.foldl_cons]
    have h2 : pstep ⟨[] ++ s, row, rows, .quoted⟩ '"' = ⟨s, row, rows, .afterQuote⟩ := by
      simp [pstep]
    rw [h2, List.foldl_cons]
    have h3 : pstep ⟨s, row, rows, .afterQuote⟩ ',' = ⟨[], row ++ [s], rows, .normal⟩ := by
      simp [pstep]
    rw [h3]
  · rw [if_neg hq]
    have hall : ∀ c ∈ s, csvSpecial c = false := by
      intro c hcm
      by_contra hne
      exact hq (List.any_eq_true.mpr ⟨c, hcm, by revert hne; cases csvSpecial c <;> simp⟩)
    rw [List.foldl_append, scan_unquoted s hall [] row rows, List.foldl_cons]
    have h1 : pstep ⟨[] ++ s, row, rows, .normal⟩ ',' = ⟨[], row ++ [s], rows, .normal⟩ := by
      simp [pstep]
    rw [h1]

theorem scan_cell_newline (s : List Char) (row : List (List Char))
    (rows : List (List (List Char))) (rest : List Char) (hrow : row ≠ []) :
    List.foldl pstep ⟨[], row, rows, .normal⟩ (escapeCell s ++ '\n' :: rest)
      = List.foldl pstep ⟨[], [], rows ++ [row ++ [s]], .normal⟩ rest := by
  have hempty : row.isEmpty = false := by
    cases row with
    | nil => exact absurd rfl hrow
    | cons a t => rfl
  rw [escapeCell]
  by_cases hq : s.any csvSpecial
  · rw [if_pos hq]
    have hshape : ('"' :: escBody s ++ ['"']) ++ '\n' :: rest
        = '"' :: (escBody s ++ '"' :: '\n' :: rest) := by
      simp
    rw [hshape, List.foldl_cons]
    have h1 : pstep ⟨[], row, rows, .normal⟩ '"' = ⟨[], row, rows, .quoted⟩ := by
      simp [pstep]
    rw [h1, show escBody s ++ '"' :: '\n' :: rest = escBody s ++ ('"' :: '\n' :: rest) from rfl,
      List.foldl_append, scan_quoted_body, List.foldl_cons]
    have h2 : pstep ⟨[] ++ s, row, rows, .quoted⟩ '"' = ⟨s, row, rows, .afterQuote⟩ := by
      simp [pstep]
    rw [h2, List.foldl_cons]
    have h3 : pstep ⟨s, row, rows, .afterQuote⟩ '\n'
        = ⟨[], [], rows ++ [row ++ [s]], .normal⟩ := by
      simp [pstep]
    rw [h3]
  · rw [if_neg hq]
    have hall : ∀ c ∈ s, csvSpecial c = false := by
      intro c hcm
      by_contra hne
      exact hq (List.any_eq_true.mpr ⟨c, hcm, by revert hne; cases csvSpecial c <;> simp⟩)
    rw [List.foldl_append, scan_unquoted s hall [] row rows, List.foldl_cons]
    have h1 : pstep ⟨[] ++ s, row, rows, .normal⟩ '\n'
        = ⟨[], [], rows ++ [row ++ [s]], .normal⟩ := by
      simp [pstep, hempty]
    rw [h1]

theorem scan_record :
    ∀ (cs : List (List Char)) (c : List Char) (row : List (List Char))
      (rows : List (List (List Char))) (rest : List Char),
      row ≠ [] ∨ cs ≠ [] →
      List.foldl pstep ⟨[], row, rows, .normal⟩ (csvLine (c :: cs) ++ rest)
        = List.foldl pstep ⟨[], [], rows ++ [row ++ c :: cs], .normal⟩ rest := by
  intro cs
  induction cs with
  | nil =>
    intro c row rows rest h
    have hrow : row ≠ [] := by
      rcases h with h | h
      · exact h
      · exact absurd rfl h
    have hline : csvLine [c] ++ rest = escapeCell c ++ '\n' :: rest := by
      simp [csvLine, joinCells]
    rw [hline, scan_cell_newline c row rows rest hrow]
  | cons c' cs' ih =>
    intro c row rows rest h
    have hline : csvLine (c :: c' :: cs') ++ rest
        = escapeCell c ++ ',' :: (csvLine (c' :: cs') ++ rest) := by
      simp [csvLine, joinCells]
    rw [hline, scan_cell_comma, ih c' (row ++ [c]) rows rest (Or.inl (by simp))]
    simp

theorem scan_table :
    ∀ (recs : List (List (List Char))) (rows : List (List (List Char))),
      (∀ rec ∈ recs, 2 ≤ rec.length) →
      List.foldl pstep ⟨[], [], rows, .normal⟩ ((recs.map csvLine).flatten)
        = ⟨[], [], rows ++ recs, .normal⟩ := by
  intro recs
  induction recs with
  | nil => intro rows _; simp
  | cons rec recs' ih =>
    intro rows h
    have h2 := h rec (List.mem_cons_self rec recs')
    cases rec with
    | nil => simp at h2
    | cons c rec1 =>
      cases rec1 with
      | nil => simp at h2
      | cons c' cs =>
        rw [List.map_cons, List.flatten_cons, scan_record (c' :: cs) c [] rows _
          (Or.inr (List.cons_ne_nil c' cs))]
        rw [ih (rows ++ [[] ++ c :: c' :: cs]) (fun x hx => h x (List.mem_cons_of_mem _ hx))]
        simp

theorem parseCsv_to_csv (df : List AmbRecord) :
    parseCsv (to_csv df) = headerCells :: df.map recordCells := by
  have hlen : ∀ rec ∈ headerCells :: df.map recordCells, 2 ≤ rec.length := by
    intro rec hrec
    rcases List.mem_cons.mp hrec with h | h
    · subst h; simp [headerCells, ambulatoryQuery]
    · obtain ⟨r, _, rfl⟩ := List.mem_map.mp h
      simp [recordCells]
  unfold parseCsv to_csv
  rw [scan_table _ [] hlen]
  simp

/-- **C9**: exporting a non-empty ambulatory table to CSV (all eight
columns, comma-separated, header row) and re-parsing it reproduces the
original table exactly in shape: the parse yields the ambulatory column
list as header followed by exactly one record per input row. -/
theorem c9_csv_roundtrip (df : List AmbRecord) (h : df ≠ []) :
    ∃ body, parseCsv (to_csv df) = (ambulatoryQuery.selectCols.map String.data) :: body
      ∧ body.length = df.length :=
  ⟨df.map recordCells, by rw [parseCsv_to_csv]; rfl, List.length_map df recordCells⟩

/-- Witness for C9 at the one-row table `[r1]`. -/
theorem c9_witness :
    (([r1] : List AmbRecord) ≠ [])
    ∧ ∃ body, parseCsv (to_csv [r1]) = (ambulatoryQuery.selectCols.map String.data) :: body
        ∧ body.length = [r1].length :=
  ⟨List.cons_ne_nil r1 [], c9_csv_roundtrip [r1] (List.cons_ne_nil r1 [])⟩
